import Mathlib

/-!
Verification development for the solana-hyper-bot decision core.

The signal/risk decision engine (`src/principia-engine.js`, class
`PrincipiaEngine`) and the execution gate (`src/trade-executor.js`, class
`TradeExecutor`) are shallowly embedded here.  JavaScript numbers are
modelled by `ℚ` (all operations the embedded code performs on well-formed
inputs are field operations, `Math.abs`, `Math.min`, `Math.max`,
`Math.pow` and `Math.floor`, which are exact over the rationals).  The
mutable instance fields of the engine become an explicit `EngineState` value
threaded through `analyzeMarket`; the mutable
`tradeHistory`/`config` of the executor become an `ExecState` value threaded through a
step function.  A second, smaller embedding over `JsNum` (rationals
extended with a NaN-like element) models how the very same control flow of
`analyzeMarket` behaves when an observation field is missing, i.e. reads
as `undefined` and propagates as `NaN` through arithmetic.
-/

namespace HyperBot

/-- Embeds `Math.abs` on rationals, written with an executable `if` so that the
kernel can evaluate it on concrete inputs. -/
def mathAbs (a : ℚ) : ℚ := if a ≤ 0 then -a else a

/-- Embeds `Math.min` on two rationals. -/
def mathMin (a b : ℚ) : ℚ := if a ≤ b then a else b

/-- Embeds `Math.max` on two rationals. -/
def mathMax (a b : ℚ) : ℚ := if a ≤ b then b else a

/-- Trading position, the state-machine state of the engine (the strings
long, short, neutral in the source). -/
inductive Position
  | long
  | short
  | neutral
  deriving DecidableEq, Repr

/-- Decision action (the strings buy, sell, hold in the source). -/
inductive Action
  | buy
  | sell
  | hold
  deriving DecidableEq, Repr

/-- Resolved engine configuration (`this.config` in the `PrincipiaEngine`
constructor).  The source field `riskReactionRatio` is embedded under the
name `riskReaction`. -/
structure EngineConfig where
  inertiaThreshold : ℚ
  tradingMass : ℚ
  riskReaction : ℚ
  gravitationalConstant : ℚ
  momentumPeriod : ℕ
  maxPositionSize : ℚ
  deriving DecidableEq, Repr

/-- The constructor defaults: 0.15, 1.0, 1.0, 0.001, 20, 0.3. -/
def defaultConfig : EngineConfig :=
  { inertiaThreshold := 0.15
    tradingMass := 1
    riskReaction := 1
    gravitationalConstant := 0.001
    momentumPeriod := 20
    maxPositionSize := 0.3 }

/-- A support/resistance key level (`{price, volume}` objects consumed by
`calculateGravitationalForce`). -/
structure KeyLevel where
  price : ℚ
  volume : ℚ
  deriving DecidableEq, Repr

/-- The mutable instance fields of the engine that `analyzeMarket` reads and
writes: `currentPosition`, `positionSize`, `momentum`, `priceHistory`.
(`signalHistory` is never written by any method, and `lastAction` carries
a wall-clock timestamp; neither participates in any claim.) -/
structure EngineState where
  currentPosition : Position
  positionSize : ℚ
  momentum : ℚ
  priceHistory : List ℚ
  deriving DecidableEq, Repr

/-- Constructor-time state: `neutral`, size 0, momentum 0, empty history. -/
def initialState : EngineState :=
  { currentPosition := Position.neutral
    positionSize := 0
    momentum := 0
    priceHistory := [] }

/-- One `marketData` argument of `analyzeMarket`, with all fields present
and numeric.  (`volume` is destructured by the source but never used.) -/
structure MarketData where
  price : ℚ
  volume : ℚ
  signalStrength : ℚ
  keyLevels : List KeyLevel
  portfolioValue : ℚ
  deriving DecidableEq, Repr

/-- Embeds `overcomesInertia`: `Math.abs(signalStrength) >= this.config.inertiaThreshold`. -/
def overcomesInertia (cfg : EngineConfig) (signalStrength : ℚ) : Bool :=
  decide (cfg.inertiaThreshold ≤ mathAbs signalStrength)

/-- Embeds `calculateAcceleration`: `force / this.config.tradingMass`. -/
def calculateAcceleration (cfg : EngineConfig) (force : ℚ) : ℚ :=
  force / cfg.tradingMass

/-- Risk-management parameters produced by `calculateReaction`. -/
structure RiskManagement where
  stopLoss : ℚ
  takeProfit : ℚ
  hedgeSize : ℚ
  deriving DecidableEq, Repr

/-- Embeds `calculateReaction`: stop loss, take profit and hedge as fixed
multiples (0.5 / 1.5 / 0.2) of `positionSize × riskReactionRatio`. -/
def calculateReaction (cfg : EngineConfig) (positionSize : ℚ) : RiskManagement :=
  { stopLoss := positionSize * cfg.riskReaction * 0.5
    takeProfit := positionSize * cfg.riskReaction * 1.5
    hedgeSize := positionSize * cfg.riskReaction * 0.2 }

/-- The body of the `for (const level of keyLevels)` loop in
`calculateGravitationalForce`: skip zero-distance levels, otherwise add
`gravitationalConstant * (volume / distance²)`, signed by whether the
level sits above (`+1`) or below (`-1`) the current price. -/
def gravStep (cfg : EngineConfig) (currentPrice : ℚ) (acc : ℚ) (level : KeyLevel) : ℚ :=
  let distance := mathAbs (currentPrice - level.price)
  if distance = 0 then acc
  else
    let force := cfg.gravitationalConstant * (level.volume / distance ^ 2)
    let direction : ℚ := if currentPrice < level.price then 1 else -1
    acc + force * direction

/-- Embeds `calculateGravitationalForce`: accumulate the loop above over all key
levels, then clamp with `Math.max(-1, Math.min(1, totalForce))`. -/
def calculateGravitationalForce (cfg : EngineConfig) (currentPrice : ℚ)
    (keyLevels : List KeyLevel) : ℚ :=
  let totalForce := keyLevels.foldl (gravStep cfg currentPrice) 0
  mathMax (-1) (mathMin 1 totalForce)

/-- Embeds `updateMomentum`, in state-passing form: push the current price, drop
the oldest sample once the window exceeds `momentumPeriod`, then with
fewer than 2 samples set momentum 0, else
`momentum = tradingMass × (price − oldest)/oldest`.
Returns `(new momentum, new priceHistory)`. -/
def updateMomentum (cfg : EngineConfig) (priceHistory : List ℚ) (currentPrice : ℚ) :
    ℚ × List ℚ :=
  let pushed := priceHistory ++ [currentPrice]
  let hist := if cfg.momentumPeriod < pushed.length then pushed.tail else pushed
  if hist.length < 2 then (0, hist)
  else
    let oldPrice := hist.headD 0
    let velocity := (currentPrice - oldPrice) / oldPrice
    (cfg.tradingMass * velocity, hist)

/-- The two possible return objects of `analyzeMarket`: the early
hold-action return when the inertia gate refuses (it carries the
force, the threshold and the untouched position data), and the full
decision object of the main path. -/
inductive Decision
  | refused (force : ℚ) (inertiaThreshold : ℚ) (currentPosition : Position)
      (positionSize : ℚ)
  | executed (action : Action) (position : Position) (positionSize : ℚ)
      (positionChange : ℚ) (force : ℚ) (acceleration : ℚ) (momentum : ℚ)
      (gravitationalForce : ℚ) (riskManagement : RiskManagement)
  deriving DecidableEq, Repr

/-- The `action` field of either return object (hold on the refused
early return). -/
def Decision.action : Decision → Action
  | Decision.refused _ _ _ _ => Action.hold
  | Decision.executed a _ _ _ _ _ _ _ _ => a

/-- The `riskManagement` field; the refused early return carries none. -/
def Decision.riskManagement : Decision → Option RiskManagement
  | Decision.refused _ _ _ _ => none
  | Decision.executed _ _ _ _ _ _ _ _ rm => some rm

/-- The combined force exactly as `analyzeMarket` computes it:
`signalStrength * 0.6 + momentum * 0.2 + gravitationalForce * 0.2`, where
`momentum` is the value `updateMomentum` just produced (the momentum step
runs before the inertia gate). -/
def engineCombinedForce (cfg : EngineConfig) (st : EngineState) (md : MarketData) : ℚ :=
  md.signalStrength * 0.6 + (updateMomentum cfg st.priceHistory md.price).1 * 0.2 +
    calculateGravitationalForce cfg md.price md.keyLevels * 0.2

/-- The clamped `newPositionSize` of the main path of `analyzeMarket`:
`positionSize + acceleration`, hard-limited to
`±(portfolioValue × maxPositionSize)`. -/
def engineNewPositionSize (cfg : EngineConfig) (st : EngineState) (md : MarketData) : ℚ :=
  let maxSize := md.portfolioValue * cfg.maxPositionSize
  mathMax (-maxSize)
    (mathMin maxSize (st.positionSize + calculateAcceleration cfg (engineCombinedForce cfg st md)))

/-- Embeds `analyzeMarket`, in state-passing form.  Mirrors the source order:
momentum update (mutating `priceHistory` and `momentum`), gravitational
force, force composition, inertia gate (early return), acceleration and
clamped sizing, action derivation with the 0.01 dead-band, risk reaction,
and the final state commit.  Returns `(decision, new state)`. -/
def analyzeMarket (cfg : EngineConfig) (st : EngineState) (md : MarketData) :
    Decision × EngineState :=
  let momentum := (updateMomentum cfg st.priceHistory md.price).1
  let hist := (updateMomentum cfg st.priceHistory md.price).2
  let gravitationalForce := calculateGravitationalForce cfg md.price md.keyLevels
  let combinedForce := md.signalStrength * 0.6 + momentum * 0.2 + gravitationalForce * 0.2
  let st1 : EngineState := { st with momentum := momentum, priceHistory := hist }
  if overcomesInertia cfg combinedForce then
    let acceleration := calculateAcceleration cfg combinedForce
    let maxSize := md.portfolioValue * cfg.maxPositionSize
    let newPositionSize := mathMax (-maxSize) (mathMin maxSize (st.positionSize + acceleration))
    let actionPos : Action × Position :=
      if st.positionSize + 0.01 < newPositionSize then (Action.buy, Position.long)
      else if newPositionSize < st.positionSize - 0.01 then
        (Action.sell,
          if newPositionSize < 0 then Position.short
          else if newPositionSize = 0 then Position.neutral
          else Position.long)
      else (Action.hold, st.currentPosition)
    let riskManagement := calculateReaction cfg (mathAbs newPositionSize)
    (Decision.executed actionPos.1 actionPos.2 newPositionSize
        (newPositionSize - st.positionSize) combinedForce acceleration momentum
        gravitationalForce riskManagement,
      { st1 with currentPosition := actionPos.2, positionSize := newPositionSize })
  else
    (Decision.refused combinedForce cfg.inertiaThreshold st.currentPosition st.positionSize,
      st1)

/-! ### Concrete engine inputs used by counterexamples and witnesses -/

/-- A quiet observation: zero signal, no key levels, fresh-history price
100.  Its combined force is 0, below the default inertia threshold. -/
def mdQuiet : MarketData :=
  { price := 100, volume := 1000, signalStrength := 0, keyLevels := [], portfolioValue := 1000 }

/-- Scenario B of the spec: strong signal 0.75, no momentum, no gravity. -/
def mdStrong : MarketData :=
  { price := 100, volume := 1000, signalStrength := 0.75, keyLevels := [],
    portfolioValue := 10000 }

/-- Scenario D of the spec: out-of-range signal 2.0 against a 10000
portfolio. -/
def mdScenarioD : MarketData :=
  { price := 100, volume := 1000, signalStrength := 2, keyLevels := [],
    portfolioValue := 10000 }

/-- A strong signal paired with a zero-value portfolio: the position clamp
collapses the new position size to 0. -/
def mdZeroValue : MarketData :=
  { price := 100, volume := 1000, signalStrength := 1, keyLevels := [], portfolioValue := 0 }

/-- A quiet observation against a portfolio now worth only 10. -/
def mdSmallValue : MarketData :=
  { price := 100, volume := 1000, signalStrength := 0, keyLevels := [], portfolioValue := 10 }

/-- A prior state holding a position of size 10 (e.g. accumulated while
the portfolio was larger). -/
def stHolding : EngineState :=
  { currentPosition := Position.long, positionSize := 10, momentum := 0, priceHistory := [] }

/-- The risk-management object produced when the clamped new position size
is 0 (zero-value portfolio): all three parameters collapse to 0. -/
def rmZero : RiskManagement :=
  { stopLoss := 0, takeProfit := 0, hedgeSize := 0 }

/-- A prior state holding a tiny position of size 0.005, inside the 0.01
dead-band of the clamped new size 0 that `mdZeroValue` produces. -/
def stTiny : EngineState :=
  { currentPosition := Position.long, positionSize := 0.005, momentum := 0, priceHistory := [] }

/-- The risk-management object `analyzeMarket defaultConfig initialState
mdStrong` produces: `|0.45| × 1 × (0.5, 1.5, 0.2)`. -/
def rmStrong : RiskManagement :=
  { stopLoss := 0.225, takeProfit := 0.675, hedgeSize := 0.09 }

/-! ### JavaScript-number semantics of `analyzeMarket`

`src/principia-engine.js` performs no validation of its `marketData`
argument: destructuring a missing `price` or `signalStrength` yields
`undefined`, every arithmetic operation on `undefined` yields `NaN`, and
every ordered comparison involving `NaN` is false.  `JsNum` extends `ℚ`
with one non-numeric element `nan` covering `undefined`/`NaN`, and the
`js*` operations implement exactly those propagation rules.  (JavaScript
division of a number by numeric zero yields `±Infinity`; the embedding
collapses that to `nan` as well — no claim exercises that path.) -/

/-- A JavaScript numeric value: a rational or the non-numeric `NaN`
(also standing for `undefined` read out of a missing object field). -/
inductive JsNum
  | nan
  | num (q : ℚ)
  deriving DecidableEq, Repr

/-- JavaScript `+` on numbers: `NaN` absorbs. -/
def jsAdd : JsNum → JsNum → JsNum
  | JsNum.num a, JsNum.num b => JsNum.num (a + b)
  | _, _ => JsNum.nan

/-- JavaScript `-` on numbers: `NaN` absorbs. -/
def jsSub : JsNum → JsNum → JsNum
  | JsNum.num a, JsNum.num b => JsNum.num (a - b)
  | _, _ => JsNum.nan

/-- JavaScript `*` on numbers: `NaN` absorbs. -/
def jsMul : JsNum → JsNum → JsNum
  | JsNum.num a, JsNum.num b => JsNum.num (a * b)
  | _, _ => JsNum.nan

/-- JavaScript `/` on numbers: `NaN` absorbs; division by numeric zero is
collapsed to `nan` (JavaScript gives `±Infinity`/`NaN`; unexercised). -/
def jsDiv : JsNum → JsNum → JsNum
  | JsNum.num a, JsNum.num b => if b = 0 then JsNum.nan else JsNum.num (a / b)
  | _, _ => JsNum.nan

/-- JavaScript unary `-`. -/
def jsNeg : JsNum → JsNum
  | JsNum.num a => JsNum.num (-a)
  | JsNum.nan => JsNum.nan

/-- Embeds `Math.abs`: `NaN` in, `NaN` out. -/
def jsAbs : JsNum → JsNum
  | JsNum.num a => JsNum.num (mathAbs a)
  | JsNum.nan => JsNum.nan

/-- JavaScript `<`: false whenever either side is `NaN`. -/
def jsLt : JsNum → JsNum → Bool
  | JsNum.num a, JsNum.num b => decide (a < b)
  | _, _ => false

/-- JavaScript `>=`: false whenever either side is `NaN`. -/
def jsGe : JsNum → JsNum → Bool
  | JsNum.num a, JsNum.num b => decide (b ≤ a)
  | _, _ => false

/-- Embeds `Math.min`: `NaN` absorbs. -/
def jsMin : JsNum → JsNum → JsNum
  | JsNum.num a, JsNum.num b => JsNum.num (mathMin a b)
  | _, _ => JsNum.nan

/-- Embeds `Math.max`: `NaN` absorbs. -/
def jsMax : JsNum → JsNum → JsNum
  | JsNum.num a, JsNum.num b => JsNum.num (mathMax a b)
  | _, _ => JsNum.nan

/-- A key level whose fields may be non-numeric. -/
structure JsKeyLevel where
  price : JsNum
  volume : JsNum
  deriving DecidableEq, Repr

/-- Engine state under JavaScript-number semantics. -/
structure JsEngineState where
  currentPosition : Position
  positionSize : JsNum
  momentum : JsNum
  priceHistory : List JsNum
  deriving DecidableEq, Repr

/-- Constructor-time state under JavaScript-number semantics. -/
def jsInitialState : JsEngineState :=
  { currentPosition := Position.neutral
    positionSize := JsNum.num 0
    momentum := JsNum.num 0
    priceHistory := [] }

/-- A `marketData` object whose fields may be missing: a missing field
destructures to `undefined`, embedded as `JsNum.nan`. -/
structure JsMarketData where
  price : JsNum
  volume : JsNum
  signalStrength : JsNum
  keyLevels : List JsKeyLevel
  portfolioValue : JsNum
  deriving DecidableEq, Repr

/-- The structurally invalid observation of Scenario-§7: `price` is
missing (reads as `undefined`/`nan`), everything else well-formed. -/
def mdMissingPrice : JsMarketData :=
  { price := JsNum.nan, volume := JsNum.num 1000, signalStrength := JsNum.num 0.5,
    keyLevels := [], portfolioValue := JsNum.num 1000 }

/-- Risk-management parameters under JavaScript-number semantics. -/
structure JsRiskManagement where
  stopLoss : JsNum
  takeProfit : JsNum
  hedgeSize : JsNum
  deriving DecidableEq, Repr

/-- Embeds `calculateReaction` under JavaScript-number semantics. -/
def calculateReactionJs (cfg : EngineConfig) (positionSize : JsNum) : JsRiskManagement :=
  { stopLoss := jsMul (jsMul positionSize (JsNum.num cfg.riskReaction)) (JsNum.num 0.5)
    takeProfit := jsMul (jsMul positionSize (JsNum.num cfg.riskReaction)) (JsNum.num 1.5)
    hedgeSize := jsMul (jsMul positionSize (JsNum.num cfg.riskReaction)) (JsNum.num 0.2) }

/-- The gravitational loop body under JavaScript-number semantics
(`distance === 0` is strict equality, false for `NaN`). -/
def gravStepJs (cfg : EngineConfig) (currentPrice : JsNum) (acc : JsNum)
    (level : JsKeyLevel) : JsNum :=
  let distance := jsAbs (jsSub currentPrice level.price)
  if distance = JsNum.num 0 then acc
  else
    let force := jsMul (JsNum.num cfg.gravitationalConstant)
      (jsDiv level.volume (jsMul distance distance))
    let direction := if jsLt currentPrice level.price then JsNum.num 1 else JsNum.num (-1)
    jsAdd acc (jsMul force direction)

/-- Embeds `calculateGravitationalForce` under JavaScript-number semantics. -/
def calculateGravitationalForceJs (cfg : EngineConfig) (currentPrice : JsNum)
    (keyLevels : List JsKeyLevel) : JsNum :=
  let totalForce := keyLevels.foldl (gravStepJs cfg currentPrice) (JsNum.num 0)
  jsMax (JsNum.num (-1)) (jsMin (JsNum.num 1) totalForce)

/-- Embeds `updateMomentum` under JavaScript-number semantics: note that
`priceHistory.push(price)` happily stores a non-numeric value. -/
def updateMomentumJs (cfg : EngineConfig) (priceHistory : List JsNum)
    (currentPrice : JsNum) : JsNum × List JsNum :=
  let pushed := priceHistory ++ [currentPrice]
  let hist := if cfg.momentumPeriod < pushed.length then pushed.tail else pushed
  if hist.length < 2 then (JsNum.num 0, hist)
  else
    let oldPrice := hist.headD JsNum.nan
    let velocity := jsDiv (jsSub currentPrice oldPrice) oldPrice
    (jsMul (JsNum.num cfg.tradingMass) velocity, hist)

/-- The `analyzeMarket` return objects under JavaScript-number semantics. -/
inductive JsDecision
  | refused (force : JsNum) (inertiaThreshold : ℚ) (currentPosition : Position)
      (positionSize : JsNum)
  | executed (action : Action) (position : Position) (positionSize : JsNum)
      (positionChange : JsNum) (force : JsNum) (acceleration : JsNum) (momentum : JsNum)
      (gravitationalForce : JsNum) (riskManagement : JsRiskManagement)
  deriving DecidableEq, Repr

/-- The `action` field of either return object. -/
def JsDecision.action : JsDecision → Action
  | JsDecision.refused _ _ _ _ => Action.hold
  | JsDecision.executed a _ _ _ _ _ _ _ _ => a

/-- Embeds `analyzeMarket` under JavaScript-number semantics, the same control
flow as `analyzeMarket` above with every arithmetic operation and
comparison replaced by its `js*` counterpart.  The source contains no
validation and no `throw`, so this function is total: every input,
including structurally invalid ones, returns a decision and a committed
state. -/
def analyzeMarketJs (cfg : EngineConfig) (st : JsEngineState) (md : JsMarketData) :
    JsDecision × JsEngineState :=
  let momentum := (updateMomentumJs cfg st.priceHistory md.price).1
  let hist := (updateMomentumJs cfg st.priceHistory md.price).2
  let gravitationalForce := calculateGravitationalForceJs cfg md.price md.keyLevels
  let combinedForce := jsAdd (jsAdd (jsMul md.signalStrength (JsNum.num 0.6))
    (jsMul momentum (JsNum.num 0.2))) (jsMul gravitationalForce (JsNum.num 0.2))
  let st1 : JsEngineState := { st with momentum := momentum, priceHistory := hist }
  if jsGe (jsAbs combinedForce) (JsNum.num cfg.inertiaThreshold) then
    let acceleration := jsDiv combinedForce (JsNum.num cfg.tradingMass)
    let maxSize := jsMul md.portfolioValue (JsNum.num cfg.maxPositionSize)
    let newPositionSize :=
      jsMax (jsNeg maxSize) (jsMin maxSize (jsAdd st.positionSize acceleration))
    let actionPos : Action × Position :=
      if jsLt (jsAdd st.positionSize (JsNum.num 0.01)) newPositionSize then
        (Action.buy, Position.long)
      else if jsLt newPositionSize (jsSub st.positionSize (JsNum.num 0.01)) then
        (Action.sell,
          if jsLt newPositionSize (JsNum.num 0) then Position.short
          else if newPositionSize = JsNum.num 0 then Position.neutral
          else Position.long)
      else (Action.hold, st.currentPosition)
    let riskManagement := calculateReactionJs cfg (jsAbs newPositionSize)
    (JsDecision.executed actionPos.1 actionPos.2 newPositionSize
        (jsSub newPositionSize st.positionSize) combinedForce acceleration momentum
        gravitationalForce riskManagement,
      { st1 with currentPosition := actionPos.2, positionSize := newPositionSize })
  else
    (JsDecision.refused combinedForce cfg.inertiaThreshold st.currentPosition st.positionSize,
      st1)

/-! ### Execution gate (`src/trade-executor.js`, class `TradeExecutor`) -/

/-- The constant `LAMPORTS_PER_SOL = 1_000_000_000`. -/
def LAMPORTS_PER_SOL : ℚ := 1000000000

/-- The hardcoded input mint of every buy (output mint of every sell). -/
def SOL_MINT : String := "So11111111111111111111111111111111111111112"

/-- The hardcoded output mint of every buy (input mint of every sell). -/
def USDC_MINT : String := "EPjFWdd5AufqSSqeM2qN1xzybapC8G4wEGGkZwyTDt1v"

/-- The executor configuration fields `executeSwap` reads.  (`jupiterApi`,
`maxRetries` and `network` only affect which quote provider answers; the
answer of the provider enters `executeSwap` as a `QuoteOutcome` value.) -/
structure ExecConfig where
  slippageBps : ℚ
  dryRun : Bool
  minTradeSize : ℚ
  deriving DecidableEq, Repr

/-- A record pushed onto `this.tradeHistory` (the `trade` object of the
dry-run branch of `executeSwap`; `timestamp` is wall-clock `Date.now()`
and is omitted). -/
structure TradeRecord where
  success : Bool
  dryRun : Bool
  inputMint : String
  outputMint : String
  inputAmount : ℚ
  outputAmount : ℚ
  priceImpact : ℚ
  deriving DecidableEq, Repr

/-- What `await this.getQuote(...)` produced: a quote object (its
`outAmount` and `priceImpactPct` fields are the only ones `executeSwap`
reads), a falsy value, or a rejection (caught by the `try`/`catch` of
`executeSwap`).  The real provider performs network I/O, so its answer is
an input of the embedding. -/
inductive QuoteOutcome
  | ok (outAmount : ℚ) (priceImpactPct : ℚ)
  | failed
  | thrown (msg : String)
  deriving DecidableEq, Repr

/-- The distinguishable `{success, reason, ...}` result objects
`executeSwap` returns. -/
inductive SwapResult
  | belowMinimum (minSize : ℚ)
  | quoteFailed
  | executedTrade (trade : TradeRecord)
  | notImplemented
  | errorCaught (msg : String)
  deriving DecidableEq, Repr

/-- The `success` field of the returned result object. -/
def SwapResult.success : SwapResult → Bool
  | SwapResult.executedTrade t => t.success
  | _ => false

/-- Embeds `executeSwap`, in state-passing form over the trade history.  Returns
`(result, new tradeHistory, whether the quote provider was invoked)`:
the size check `amount < minTradeSize * LAMPORTS_PER_SOL` runs before
`getQuote`, so the below-minimum early return never consults the
provider; only the dry-run branch pushes onto the history. -/
def executeSwap (cfg : ExecConfig) (history : List TradeRecord)
    (inputMint outputMint : String) (amount : ℚ) (quote : QuoteOutcome) :
    SwapResult × List TradeRecord × Bool :=
  if amount < cfg.minTradeSize * LAMPORTS_PER_SOL then
    (SwapResult.belowMinimum cfg.minTradeSize, history, false)
  else
    match quote with
    | QuoteOutcome.thrown _msg => (SwapResult.errorCaught _msg, history, true)
    | QuoteOutcome.failed => (SwapResult.quoteFailed, history, true)
    | QuoteOutcome.ok outAmount priceImpactPct =>
      if cfg.dryRun then
        let trade : TradeRecord :=
          { success := true, dryRun := true, inputMint := inputMint,
            outputMint := outputMint, inputAmount := amount, outputAmount := outAmount,
            priceImpact := priceImpactPct }
        (SwapResult.executedTrade trade, history ++ [trade], true)
      else
        (SwapResult.notImplemented, history, true)

/-- Embeds `executeBuy`: `amount = Math.floor(portfolioValue * size *
LAMPORTS_PER_SOL)`, then a swap hardcoded to SOL → USDC.  The `pair`
argument is only interpolated into log lines. -/
def executeBuy (cfg : ExecConfig) (history : List TradeRecord) (pair : String)
    (size portfolioValue : ℚ) (quote : QuoteOutcome) :
    SwapResult × List TradeRecord × Bool :=
  let _ := pair
  let amount : ℚ := (⌊portfolioValue * size * LAMPORTS_PER_SOL⌋ : ℤ)
  executeSwap cfg history SOL_MINT USDC_MINT amount quote

/-- Embeds `executeSell`: same amount computation, swap hardcoded to USDC → SOL. -/
def executeSell (cfg : ExecConfig) (history : List TradeRecord) (pair : String)
    (size portfolioValue : ℚ) (quote : QuoteOutcome) :
    SwapResult × List TradeRecord × Bool :=
  let _ := pair
  let amount : ℚ := (⌊portfolioValue * size * LAMPORTS_PER_SOL⌋ : ℤ)
  executeSwap cfg history USDC_MINT SOL_MINT amount quote

/-- The mutable pieces of the executor: its config (`setDryRun` writes it) and
the trade history. -/
structure ExecState where
  config : ExecConfig
  tradeHistory : List TradeRecord
  deriving DecidableEq, Repr

/-- One external call into the mutating API of the executor. -/
inductive ExecOp
  | swap (inputMint outputMint : String) (amount : ℚ) (quote : QuoteOutcome)
  | buy (pair : String) (size portfolioValue : ℚ) (quote : QuoteOutcome)
  | sell (pair : String) (size portfolioValue : ℚ) (quote : QuoteOutcome)
  | setDryRun (enabled : Bool)
  | clearHistory
  deriving DecidableEq, Repr

/-- The state change each executor call performs. -/
def stepExec (s : ExecState) : ExecOp → ExecState
  | ExecOp.swap im om amount quote =>
    { s with tradeHistory := (executeSwap s.config s.tradeHistory im om amount quote).2.1 }
  | ExecOp.buy pair size portfolioValue quote =>
    { s with tradeHistory := (executeBuy s.config s.tradeHistory pair size portfolioValue quote).2.1 }
  | ExecOp.sell pair size portfolioValue quote =>
    { s with tradeHistory := (executeSell s.config s.tradeHistory pair size portfolioValue quote).2.1 }
  | ExecOp.setDryRun enabled => { s with config := { s.config with dryRun := enabled } }
  | ExecOp.clearHistory => { s with tradeHistory := [] }

/-- A whole session: fold the calls over an initial executor state. -/
def runExec (s : ExecState) (ops : List ExecOp) : ExecState :=
  ops.foldl stepExec s

/-- The object `getStatistics` returns.  The source formats the rate with
`.toFixed(2)`; the embedding keeps the exact rational value. -/
structure Stats where
  totalTrades : ℕ
  successfulTrades : ℕ
  dryRunTrades : ℕ
  successRate : ℚ
  deriving DecidableEq, Repr

/-- Embeds `getStatistics`: recounted from the full history on every call;
`successRate = successful / total × 100`, or 0 on an empty history. -/
def getStatistics (history : List TradeRecord) : Stats :=
  let total := history.length
  let successful := (history.filter fun t => t.success).length
  let dryRuns := (history.filter fun t => t.dryRun).length
  { totalTrades := total
    successfulTrades := successful
    dryRunTrades := dryRuns
    successRate := if 0 < total then (successful : ℚ) / (total : ℚ) * 100 else 0 }

/-- An executor configuration used by witnesses: defaults `slippageBps
50`, `dryRun true`, `minTradeSize 0.01`. -/
def execDefault : ExecConfig :=
  { slippageBps := 50, dryRun := true, minTradeSize := 0.01 }

/-- The pair string the bot actually trades; the executor ignores it. -/
def pairSOLUSDC : String := "SOL-USDC"

/-- An arbitrary other pair string, to exhibit pair-independence. -/
def pairOther : String := "BONK-USDC"

/-- The dry-run trade record a unit-size buy against a 1-SOL portfolio
produces when the quote answers `(outAmount, priceImpactPct) = (1, 0.1)`. -/
def tradeBuyUnit : TradeRecord :=
  { success := true, dryRun := true, inputMint := SOL_MINT, outputMint := USDC_MINT,
    inputAmount := 1000000000, outputAmount := 1, priceImpact := 0.1 }

/-! ## Theorems -/

theorem mathAbs_eq_abs (a : ℚ) : mathAbs a = |a| := by
  unfold mathAbs
  rcases le_or_lt a 0 with h | h
  · simp [h, abs_of_nonpos h]
  · simp [not_le.mpr h, abs_of_pos h]

theorem mathMin_eq_min (a b : ℚ) : mathMin a b = min a b := by
  unfold mathMin
  rcases le_or_lt a b with h | h
  · simp [h, min_eq_left h]
  · simp [not_le.mpr h, min_eq_right h.le]

theorem mathMax_eq_max (a b : ℚ) : mathMax a b = max a b := by
  unfold mathMax
  rcases le_or_lt a b with h | h
  · simp [h, max_eq_right h]
  · simp [not_le.mpr h, max_eq_left h.le]

/-- When the combined force fails the inertia gate, `analyzeMarket` takes
the early `hold` return: the decision is the `refused` object, and the
committed state is the prior state with only the writes of the momentum step
(`momentum` and `priceHistory`). -/
theorem analyzeMarket_refuse (cfg : EngineConfig) (st : EngineState) (md : MarketData)
    (h : ¬ cfg.inertiaThreshold ≤ mathAbs (engineCombinedForce cfg st md)) :
    analyzeMarket cfg st md =
      (Decision.refused (engineCombinedForce cfg st md) cfg.inertiaThreshold
          st.currentPosition st.positionSize,
        { st with momentum := (updateMomentum cfg st.priceHistory md.price).1,
                  priceHistory := (updateMomentum cfg st.priceHistory md.price).2 }) := by
  have hg : overcomesInertia cfg (md.signalStrength * 0.6 +
      (updateMomentum cfg st.priceHistory md.price).1 * 0.2 +
      calculateGravitationalForce cfg md.price md.keyLevels * 0.2) = false := by
    rw [overcomesInertia, decide_eq_false_iff_not]
    rw [engineCombinedForce] at h
    exact h
  rw [engineCombinedForce]
  simp only [analyzeMarket, hg, Bool.false_eq_true, if_false]

/-- When the combined force passes the inertia gate, `analyzeMarket` takes
the main path: the committed position size is the clamped
`engineNewPositionSize`, the decision carries the risk-management object
computed from its absolute value, and the action follows the 0.01
dead-band comparison of new versus old size. -/
theorem analyzeMarket_pass (cfg : EngineConfig) (st : EngineState) (md : MarketData)
    (h : cfg.inertiaThreshold ≤ mathAbs (engineCombinedForce cfg st md)) :
    (analyzeMarket cfg st md).2.positionSize = engineNewPositionSize cfg st md ∧
    (analyzeMarket cfg st md).1.riskManagement =
      some (calculateReaction cfg (mathAbs (engineNewPositionSize cfg st md))) ∧
    (analyzeMarket cfg st md).1.action =
      (if st.positionSize + 0.01 < engineNewPositionSize cfg st md then Action.buy
       else if engineNewPositionSize cfg st md < st.positionSize - 0.01 then Action.sell
       else Action.hold) := by
  have hg : overcomesInertia cfg (md.signalStrength * 0.6 +
      (updateMomentum cfg st.priceHistory md.price).1 * 0.2 +
      calculateGravitationalForce cfg md.price md.keyLevels * 0.2) = true := by
    rw [overcomesInertia, decide_eq_true_eq]
    rw [engineCombinedForce] at h
    exact h
  have hnew : engineNewPositionSize cfg st md =
      mathMax (-(md.portfolioValue * cfg.maxPositionSize))
        (mathMin (md.portfolioValue * cfg.maxPositionSize)
          (st.positionSize + calculateAcceleration cfg (engineCombinedForce cfg st md))) := by
    rw [engineNewPositionSize]
  rw [hnew, engineCombinedForce]
  simp only [analyzeMarket, hg, if_true]
  refine ⟨by first | rfl | trivial, by first | rfl | trivial, ?_⟩
  by_cases h1 : st.positionSize + 0.01 <
      mathMax (-(md.portfolioValue * cfg.maxPositionSize))
        (mathMin (md.portfolioValue * cfg.maxPositionSize)
          (st.positionSize + calculateAcceleration cfg
            (md.signalStrength * 0.6 + (updateMomentum cfg st.priceHistory md.price).1 * 0.2 +
              calculateGravitationalForce cfg md.price md.keyLevels * 0.2)))
  · simp [h1, Decision.action]
  · by_cases h2 :
        mathMax (-(md.portfolioValue * cfg.maxPositionSize))
          (mathMin (md.portfolioValue * cfg.maxPositionSize)
            (st.positionSize + calculateAcceleration cfg
              (md.signalStrength * 0.6 + (updateMomentum cfg st.priceHistory md.price).1 * 0.2 +
                calculateGravitationalForce cfg md.price md.keyLevels * 0.2))) <
          st.positionSize - 0.01
    · simp [h1, h2, Decision.action]
    · simp [h1, h2, Decision.action]

/-- Claim C1, counterexample: on a quiet observation (combined force 0,
below the default threshold 0.15) the decision is `hold`, yet the engine
state is NOT bit-for-bit unchanged — the momentum step has already
appended the price to `priceHistory`. -/
theorem inertia_gate_unchanged_counterexample :
    mathAbs (engineCombinedForce defaultConfig initialState mdQuiet) <
      defaultConfig.inertiaThreshold ∧
    (analyzeMarket defaultConfig initialState mdQuiet).1.action = Action.hold ∧
    (analyzeMarket defaultConfig initialState mdQuiet).2.priceHistory = [100] ∧
    initialState.priceHistory = [] ∧
    (analyzeMarket defaultConfig initialState mdQuiet).2 ≠ initialState := by
  norm_num [engineCombinedForce, analyzeMarket, updateMomentum, calculateGravitationalForce,
    overcomesInertia, defaultConfig, initialState, mdQuiet, mathAbs, mathMin, mathMax,
    Decision.action]

/-- Claim C1, amended: if `|combinedForce| < inertiaThreshold` then
`analyze` returns `action = hold` and leaves `positionSize` and `position`
unchanged, but `priceHistory` and `momentum` are still updated by the
momentum step that runs before the gate. -/
theorem inertia_refusal_holds_but_history_updates (cfg : EngineConfig) (st : EngineState)
    (md : MarketData)
    (h : mathAbs (engineCombinedForce cfg st md) < cfg.inertiaThreshold) :
    (analyzeMarket cfg st md).1.action = Action.hold ∧
    (analyzeMarket cfg st md).2.positionSize = st.positionSize ∧
    (analyzeMarket cfg st md).2.currentPosition = st.currentPosition ∧
    (analyzeMarket cfg st md).2.priceHistory =
      (updateMomentum cfg st.priceHistory md.price).2 ∧
    (analyzeMarket cfg st md).2.momentum =
      (updateMomentum cfg st.priceHistory md.price).1 := by
  rw [analyzeMarket_refuse cfg st md (not_le.mpr h)]
  exact ⟨rfl, rfl, rfl, rfl, rfl⟩

/-- Claim C1, witness: the amended theorem applied to the quiet
observation. -/
theorem inertia_refusal_holds_but_history_updates_witness :
    mathAbs (engineCombinedForce defaultConfig initialState mdQuiet) <
      defaultConfig.inertiaThreshold ∧
    ((analyzeMarket defaultConfig initialState mdQuiet).1.action = Action.hold ∧
     (analyzeMarket defaultConfig initialState mdQuiet).2.positionSize =
       initialState.positionSize ∧
     (analyzeMarket defaultConfig initialState mdQuiet).2.currentPosition =
       initialState.currentPosition ∧
     (analyzeMarket defaultConfig initialState mdQuiet).2.priceHistory =
       (updateMomentum defaultConfig initialState.priceHistory mdQuiet.price).2 ∧
     (analyzeMarket defaultConfig initialState mdQuiet).2.momentum =
       (updateMomentum defaultConfig initialState.priceHistory mdQuiet.price).1) :=
  ⟨by norm_num [engineCombinedForce, updateMomentum, calculateGravitationalForce,
      defaultConfig, initialState, mdQuiet, mathAbs, mathMin, mathMax],
   inertia_refusal_holds_but_history_updates defaultConfig initialState mdQuiet
     (by norm_num [engineCombinedForce, updateMomentum, calculateGravitationalForce,
        defaultConfig, initialState, mdQuiet, mathAbs, mathMin, mathMax])⟩

/-- Claim C2, counterexample: a prior position of size 10 against a
portfolio now worth 10 (bound `0.3 × 10 = 3`): the quiet observation
fails the inertia gate, the oversized position survives, and the bound is
violated after `analyze` returns. -/
theorem position_bound_counterexample :
    ¬ |(analyzeMarket defaultConfig stHolding mdSmallValue).2.positionSize| ≤
        defaultConfig.maxPositionSize * mdSmallValue.portfolioValue := by
  norm_num [analyzeMarket, updateMomentum, calculateGravitationalForce, overcomesInertia,
    defaultConfig, stHolding, mdSmallValue, mathAbs, mathMin, mathMax]

/-- Claim C2, amended: whenever the inertia gate passes (so the clamp in
step 5 actually runs) and `portfolioValue` and `maxPositionSize` are
non-negative, the committed position size satisfies
`|positionSize| ≤ maxPositionSize × portfolioValue` — including for
out-of-range `signalStrength`.  (When the gate refuses, the prior
position size survives untouched and may exceed the current bound.) -/
theorem position_bound_gate_pass (cfg : EngineConfig) (st : EngineState) (md : MarketData)
    (h : cfg.inertiaThreshold ≤ mathAbs (engineCombinedForce cfg st md))
    (hpv : 0 ≤ md.portfolioValue) (hmx : 0 ≤ cfg.maxPositionSize) :
    |(analyzeMarket cfg st md).2.positionSize| ≤
      cfg.maxPositionSize * md.portfolioValue := by
  obtain ⟨hp, -, -⟩ := analyzeMarket_pass cfg st md h
  rw [hp]
  simp only [engineNewPositionSize, mathMax_eq_max, mathMin_eq_min]
  rw [mul_comm cfg.maxPositionSize]
  have hm0 : (0:ℚ) ≤ md.portfolioValue * cfg.maxPositionSize := mul_nonneg hpv hmx
  rw [abs_le]
  exact ⟨le_max_left _ _, max_le (by linarith) (min_le_left _ _)⟩

/-- Claim C2, witness: Scenario D (out-of-range signal 2.0, portfolio
10000) keeps the committed position within `0.3 × 10000 = 3000`. -/
theorem position_bound_gate_pass_witness :
    defaultConfig.inertiaThreshold ≤
      mathAbs (engineCombinedForce defaultConfig initialState mdScenarioD) ∧
    (0:ℚ) ≤ mdScenarioD.portfolioValue ∧ (0:ℚ) ≤ defaultConfig.maxPositionSize ∧
    |(analyzeMarket defaultConfig initialState mdScenarioD).2.positionSize| ≤
      defaultConfig.maxPositionSize * mdScenarioD.portfolioValue :=
  ⟨by norm_num [engineCombinedForce, updateMomentum, calculateGravitationalForce,
      defaultConfig, initialState, mdScenarioD, mathAbs, mathMin, mathMax],
   by norm_num [mdScenarioD],
   by norm_num [defaultConfig],
   position_bound_gate_pass defaultConfig initialState mdScenarioD
     (by norm_num [engineCombinedForce, updateMomentum, calculateGravitationalForce,
        defaultConfig, initialState, mdScenarioD, mathAbs, mathMin, mathMax])
     (by norm_num [mdScenarioD]) (by norm_num [defaultConfig])⟩

/-- Claim C3, counterexample: with the default `riskReactionRatio = 1 > 0`
and a zero-value portfolio, the gate passes, the clamp collapses the new
position size to 0, `riskManagement` is present with
`stopLoss = takeProfit = 0` — and `takeProfit / stopLoss` is not 3 (the
source computes `0 / 0`, `NaN` in JavaScript; 0 in this embedding). -/
theorem risk_ratio_counterexample :
    0 < defaultConfig.riskReaction ∧
    (analyzeMarket defaultConfig initialState mdZeroValue).1.riskManagement =
      some rmZero ∧
    rmZero.takeProfit / rmZero.stopLoss ≠ 3 := by
  norm_num [analyzeMarket, updateMomentum, calculateGravitationalForce, overcomesInertia,
    calculateAcceleration, calculateReaction, Decision.riskManagement, defaultConfig,
    initialState, mdZeroValue, rmZero, mathAbs, mathMin, mathMax]

/-- Claim C3, amended: whenever the decision carries `riskManagement`, its
fields are `|newPositionSize| × riskReactionRatio × (0.5, 1.5, 0.2)`; and
provided `stopLoss ≠ 0` (equivalently the committed position size is
nonzero), `takeProfit / stopLoss = 3`. -/
theorem risk_reaction_fields (cfg : EngineConfig) (st : EngineState) (md : MarketData)
    (hr : 0 < cfg.riskReaction) (rm : RiskManagement)
    (hrm : (analyzeMarket cfg st md).1.riskManagement = some rm) :
    rm.stopLoss = |(analyzeMarket cfg st md).2.positionSize| * cfg.riskReaction * 0.5 ∧
    rm.takeProfit = |(analyzeMarket cfg st md).2.positionSize| * cfg.riskReaction * 1.5 ∧
    rm.hedgeSize = |(analyzeMarket cfg st md).2.positionSize| * cfg.riskReaction * 0.2 ∧
    (rm.stopLoss ≠ 0 → rm.takeProfit / rm.stopLoss = 3) := by
  by_cases h : cfg.inertiaThreshold ≤ mathAbs (engineCombinedForce cfg st md)
  · obtain ⟨hp, hrm2, -⟩ := analyzeMarket_pass cfg st md h
    rw [hrm] at hrm2
    have hrm3 : rm = calculateReaction cfg (mathAbs (engineNewPositionSize cfg st md)) :=
      Option.some.inj hrm2
    rw [hp, ← mathAbs_eq_abs, hrm3]
    simp only [calculateReaction]
    refine ⟨by first | rfl | trivial, by first | rfl | trivial, by first | rfl | trivial, ?_⟩
    intro hsl
    have h15 : mathAbs (engineNewPositionSize cfg st md) * cfg.riskReaction * 1.5 =
        3 * (mathAbs (engineNewPositionSize cfg st md) * cfg.riskReaction * 0.5) := by
      ring
    rw [h15, mul_div_assoc, div_self hsl, mul_one]
  · rw [analyzeMarket_refuse cfg st md h] at hrm
    simp [Decision.riskManagement] at hrm

/-- Claim C3, witness: Scenario B (signal 0.75) yields position size 0.45
and `riskManagement = (0.225, 0.675, 0.09)` with ratio exactly 3. -/
theorem risk_reaction_fields_witness :
    0 < defaultConfig.riskReaction ∧
    (analyzeMarket defaultConfig initialState mdStrong).1.riskManagement = some rmStrong ∧
    (rmStrong.stopLoss = |(analyzeMarket defaultConfig initialState mdStrong).2.positionSize| *
        defaultConfig.riskReaction * 0.5 ∧
     rmStrong.takeProfit =
       |(analyzeMarket defaultConfig initialState mdStrong).2.positionSize| *
        defaultConfig.riskReaction * 1.5 ∧
     rmStrong.hedgeSize =
       |(analyzeMarket defaultConfig initialState mdStrong).2.positionSize| *
        defaultConfig.riskReaction * 0.2 ∧
     (rmStrong.stopLoss ≠ 0 → rmStrong.takeProfit / rmStrong.stopLoss = 3)) :=
  ⟨by norm_num [defaultConfig],
   by norm_num [analyzeMarket, updateMomentum, calculateGravitationalForce, overcomesInertia,
      calculateAcceleration, calculateReaction, Decision.riskManagement, defaultConfig,
      initialState, mdStrong, rmStrong, mathAbs, mathMin, mathMax],
   risk_reaction_fields defaultConfig initialState mdStrong
     (by norm_num [defaultConfig]) rmStrong
     (by norm_num [analyzeMarket, updateMomentum, calculateGravitationalForce,
        overcomesInertia, calculateAcceleration, calculateReaction, Decision.riskManagement,
        defaultConfig, initialState, mdStrong, rmStrong, mathAbs, mathMin, mathMax])⟩

/-- The gravitational loop, accumulator generalized: folding `gravStep`
over the key levels adds to the accumulator the sum of the signed
`G × volume / distance²` contributions of the levels at nonzero distance. -/
theorem gravStep_foldl (cfg : EngineConfig) (cp : ℚ) (ls : List KeyLevel) (a : ℚ) :
    ls.foldl (gravStep cfg cp) a =
      a + (((ls.filter fun l => decide (mathAbs (cp - l.price) ≠ 0)).map fun l =>
          if cp < l.price then
            cfg.gravitationalConstant * (l.volume / mathAbs (cp - l.price) ^ 2)
          else
            -(cfg.gravitationalConstant * (l.volume / mathAbs (cp - l.price) ^ 2))).sum) := by
  induction ls generalizing a with
  | nil => simp
  | cons l t ih =>
    rw [List.foldl_cons, List.filter_cons]
    by_cases hd : mathAbs (cp - l.price) = 0
    · have hstep : gravStep cfg cp a l = a := by simp [gravStep, hd]
      rw [hstep, ih]
      simp [hd]
    · by_cases hlt : cp < l.price
      · have hstep : gravStep cfg cp a l =
            a + cfg.gravitationalConstant * (l.volume / mathAbs (cp - l.price) ^ 2) := by
          simp [gravStep, hd, hlt]
        rw [hstep, ih]
        simp [hd, hlt]
        ring
      · have hstep : gravStep cfg cp a l =
            a - cfg.gravitationalConstant * (l.volume / mathAbs (cp - l.price) ^ 2) := by
          simp [gravStep, hd, hlt]
          ring
        rw [hstep, ih]
        simp [hd, hlt]
        ring

/-- Claim C4: the gravitational force is the zero-distance-skipping signed
sum of `G × volume / distance²` over the key levels — positive for a
level above the current price, negative below — clamped to `[-1, 1]`;
and an empty key-level list yields exactly 0. -/
theorem gravitational_force_closed_form (cfg : EngineConfig) (currentPrice : ℚ)
    (keyLevels : List KeyLevel) :
    calculateGravitationalForce cfg currentPrice keyLevels =
      max (-1) (min 1 (((keyLevels.filter fun l =>
          decide (mathAbs (currentPrice - l.price) ≠ 0)).map fun l =>
            if currentPrice < l.price then
              cfg.gravitationalConstant * (l.volume / mathAbs (currentPrice - l.price) ^ 2)
            else
              -(cfg.gravitationalConstant *
                (l.volume / mathAbs (currentPrice - l.price) ^ 2))).sum)) ∧
    calculateGravitationalForce cfg currentPrice [] = 0 := by
  constructor
  · show mathMax (-1) (mathMin 1 (keyLevels.foldl (gravStep cfg currentPrice) 0)) = _
    rw [gravStep_foldl, zero_add, mathMax_eq_max, mathMin_eq_min]
  · show mathMax (-1) (mathMin 1 (([] : List KeyLevel).foldl (gravStep cfg currentPrice) 0)) = 0
    rw [List.foldl_nil, mathMax_eq_max, mathMin_eq_min]
    norm_num

/-- Claim C5, counterexample: the Scenario C input (`currentPrice = 95`,
one level `{price: 94, volume: 10000}`, `G = 0.001`) produces the clamped
force `-1`, not `+1`: the raw magnitude is 10, but the level lies below
the current price, so the direction convention of the source makes it
negative. -/
theorem gravity_scenarioC_counterexample :
    calculateGravitationalForce defaultConfig 95 [{ price := 94, volume := 10000 }] = -1 ∧
    calculateGravitationalForce defaultConfig 95 [{ price := 94, volume := 10000 }] ≠ 1 := by
  norm_num [calculateGravitationalForce, gravStep, defaultConfig, mathAbs, mathMin, mathMax]

/-- Claim C5, amended: on the Scenario C input the computed gravitational
force is the clamped value `-1` — negative, because the level lies below
the current price. -/
theorem gravity_scenarioC_negative :
    calculateGravitationalForce defaultConfig 95 [{ price := 94, volume := 10000 }] = -1 := by
  norm_num [calculateGravitationalForce, gravStep, defaultConfig, mathAbs, mathMin, mathMax]

/-- Claim C6: when the inertia gate passes and the clamped new position
size is within the 0.01 dead-band of the old one, the returned action is
`hold`, yet the committed `positionSize` in the state is the newly computed
clamped size (not the previous one). -/
theorem dead_band_hold_commits_new_size (cfg : EngineConfig) (st : EngineState)
    (md : MarketData)
    (h : cfg.inertiaThreshold ≤ mathAbs (engineCombinedForce cfg st md))
    (hdb : mathAbs (engineNewPositionSize cfg st md - st.positionSize) ≤ 0.01) :
    (analyzeMarket cfg st md).1.action = Action.hold ∧
    (analyzeMarket cfg st md).2.positionSize = engineNewPositionSize cfg st md := by
  obtain ⟨hp, -, ha⟩ := analyzeMarket_pass cfg st md h
  rw [mathAbs_eq_abs, abs_le] at hdb
  refine ⟨?_, hp⟩
  rw [ha, if_neg (not_lt.mpr (by linarith [hdb.2])),
    if_neg (not_lt.mpr (by linarith [hdb.1]))]

/-- Claim C6, witness: a prior position of 0.005 against a zero-value
portfolio — the clamp collapses the new size to 0, inside the dead-band,
so the action is `hold` while the state still moves to 0. -/
theorem dead_band_hold_commits_new_size_witness :
    defaultConfig.inertiaThreshold ≤
      mathAbs (engineCombinedForce defaultConfig stTiny mdZeroValue) ∧
    mathAbs (engineNewPositionSize defaultConfig stTiny mdZeroValue -
      stTiny.positionSize) ≤ 0.01 ∧
    ((analyzeMarket defaultConfig stTiny mdZeroValue).1.action = Action.hold ∧
     (analyzeMarket defaultConfig stTiny mdZeroValue).2.positionSize =
       engineNewPositionSize defaultConfig stTiny mdZeroValue) :=
  ⟨by norm_num [engineCombinedForce, updateMomentum, calculateGravitationalForce,
      defaultConfig, stTiny, mdZeroValue, mathAbs, mathMin, mathMax],
   by norm_num [engineNewPositionSize, calculateAcceleration, engineCombinedForce,
      updateMomentum, calculateGravitationalForce, defaultConfig, stTiny, mdZeroValue,
      mathAbs, mathMin, mathMax],
   dead_band_hold_commits_new_size defaultConfig stTiny mdZeroValue
     (by norm_num [engineCombinedForce, updateMomentum, calculateGravitationalForce,
        defaultConfig, stTiny, mdZeroValue, mathAbs, mathMin, mathMax])
     (by norm_num [engineNewPositionSize, calculateAcceleration, engineCombinedForce,
        updateMomentum, calculateGravitationalForce, defaultConfig, stTiny, mdZeroValue,
        mathAbs, mathMin, mathMax])⟩

/-- Claim C7: `analyzeMarket` performs no input validation.  On an
observation whose `price` field is missing (reads as `undefined`), the
call does not fail — under JavaScript-number semantics it appends the
non-numeric value to `priceHistory` (mutating the engine state) and
returns an ordinary decision (here even `action = buy`, since the fresh
two-sample window short-circuits momentum to 0 and the remaining
arithmetic stays numeric).  No `ValidationError` exists anywhere in the
source. -/
theorem missing_price_no_validation :
    (analyzeMarketJs defaultConfig jsInitialState mdMissingPrice).1.action = Action.buy ∧
    (analyzeMarketJs defaultConfig jsInitialState mdMissingPrice).2.priceHistory =
      [JsNum.nan] ∧
    jsInitialState.priceHistory = [] := by
  norm_num [analyzeMarketJs, updateMomentumJs, calculateGravitationalForceJs,
    calculateReactionJs, jsAdd, jsSub, jsMul, jsDiv, jsNeg, jsAbs, jsLt, jsGe, jsMin, jsMax,
    mathAbs, mathMin, mathMax, defaultConfig, jsInitialState, mdMissingPrice,
    JsDecision.action]

/-- Claim C8: when `portfolioValue × sizeFraction < minTradeSize`, both
`executeBuy` and `executeSell` return the below-minimum failure result
(`success = false`), leave the history untouched, and never invoke the
quote provider (third component `false`). -/
theorem below_minimum_rejects_without_quote (cfg : ExecConfig)
    (history : List TradeRecord) (pair : String) (size portfolioValue : ℚ)
    (quote : QuoteOutcome) (h : portfolioValue * size < cfg.minTradeSize) :
    executeBuy cfg history pair size portfolioValue quote =
      (SwapResult.belowMinimum cfg.minTradeSize, history, false) ∧
    executeSell cfg history pair size portfolioValue quote =
      (SwapResult.belowMinimum cfg.minTradeSize, history, false) ∧
    (executeBuy cfg history pair size portfolioValue quote).1.success = false := by
  have hL : (0:ℚ) < LAMPORTS_PER_SOL := by norm_num [LAMPORTS_PER_SOL]
  have hamt : ((⌊portfolioValue * size * LAMPORTS_PER_SOL⌋ : ℤ) : ℚ) <
      cfg.minTradeSize * LAMPORTS_PER_SOL :=
    calc ((⌊portfolioValue * size * LAMPORTS_PER_SOL⌋ : ℤ) : ℚ)
        ≤ portfolioValue * size * LAMPORTS_PER_SOL := Int.floor_le _
      _ < cfg.minTradeSize * LAMPORTS_PER_SOL := (mul_lt_mul_right hL).mpr h
  have hbuy : executeBuy cfg history pair size portfolioValue quote =
      (SwapResult.belowMinimum cfg.minTradeSize, history, false) := by
    show executeSwap cfg history SOL_MINT USDC_MINT
      ((⌊portfolioValue * size * LAMPORTS_PER_SOL⌋ : ℤ) : ℚ) quote = _
    unfold executeSwap
    rw [if_pos hamt]
  have hsell : executeSell cfg history pair size portfolioValue quote =
      (SwapResult.belowMinimum cfg.minTradeSize, history, false) := by
    show executeSwap cfg history USDC_MINT SOL_MINT
      ((⌊portfolioValue * size * LAMPORTS_PER_SOL⌋ : ℤ) : ℚ) quote = _
    unfold executeSwap
    rw [if_pos hamt]
  exact ⟨hbuy, hsell, by rw [hbuy]; rfl⟩

/-- Claim C8, witness: Scenario E — `minTradeSize = 0.01`, a 0.001-SOL
request against a 1-SOL portfolio is rejected without consulting the
quote provider. -/
theorem below_minimum_rejects_without_quote_witness :
    (1:ℚ) * 0.001 < execDefault.minTradeSize ∧
    (executeBuy execDefault [] pairSOLUSDC 0.001 1 QuoteOutcome.failed =
       (SwapResult.belowMinimum execDefault.minTradeSize, [], false) ∧
     executeSell execDefault [] pairSOLUSDC 0.001 1 QuoteOutcome.failed =
       (SwapResult.belowMinimum execDefault.minTradeSize, [], false) ∧
     (executeBuy execDefault [] pairSOLUSDC 0.001 1 QuoteOutcome.failed).1.success = false) :=
  ⟨by norm_num [execDefault],
   below_minimum_rejects_without_quote execDefault [] pairSOLUSDC 0.001 1
     QuoteOutcome.failed (by norm_num [execDefault])⟩

/-- When `executeSwap` produces a dry-run trade record, its mints are the
mints it was called with. -/
theorem executeSwap_trade_mints (cfg : ExecConfig) (history : List TradeRecord)
    (im om : String) (amount : ℚ) (quote : QuoteOutcome) (t : TradeRecord)
    (ht : (executeSwap cfg history im om amount quote).1 = SwapResult.executedTrade t) :
    t.inputMint = im ∧ t.outputMint = om := by
  unfold executeSwap at ht
  by_cases hlt : amount < cfg.minTradeSize * LAMPORTS_PER_SOL
  · rw [if_pos hlt] at ht
    exact absurd ht (by simp)
  · rw [if_neg hlt] at ht
    cases quote with
    | thrown msg => simp at ht
    | failed => simp at ht
    | ok outAmount priceImpactPct =>
      by_cases hdr : cfg.dryRun = true
      · simp only [hdr, if_true] at ht
        cases ht
        exact ⟨rfl, rfl⟩
      · simp [hdr] at ht

/-- Claim C9: `executeBuy` and `executeSell` are independent of their
`pair` argument, and any trade record they produce carries the hardcoded
SOL → USDC mints (buy) or USDC → SOL mints (sell). -/
theorem fixed_mints_pair_independent (cfg : ExecConfig) (history : List TradeRecord)
    (pair pair2 : String) (size portfolioValue : ℚ) (quote : QuoteOutcome) :
    executeBuy cfg history pair size portfolioValue quote =
      executeBuy cfg history pair2 size portfolioValue quote ∧
    executeSell cfg history pair size portfolioValue quote =
      executeSell cfg history pair2 size portfolioValue quote ∧
    (∀ t : TradeRecord,
      (executeBuy cfg history pair size portfolioValue quote).1 =
          SwapResult.executedTrade t →
        t.inputMint = SOL_MINT ∧ t.outputMint = USDC_MINT) ∧
    (∀ t : TradeRecord,
      (executeSell cfg history pair size portfolioValue quote).1 =
          SwapResult.executedTrade t →
        t.inputMint = USDC_MINT ∧ t.outputMint = SOL_MINT) := by
  refine ⟨rfl, rfl, ?_, ?_⟩
  · intro t ht
    exact executeSwap_trade_mints cfg history SOL_MINT USDC_MINT
      ((⌊portfolioValue * size * LAMPORTS_PER_SOL⌋ : ℤ) : ℚ) quote t ht
  · intro t ht
    exact executeSwap_trade_mints cfg history USDC_MINT SOL_MINT
      ((⌊portfolioValue * size * LAMPORTS_PER_SOL⌋ : ℤ) : ℚ) quote t ht

/-- Claim C9, witness: a unit-size dry-run buy against two different pair
strings produces the very same SOL → USDC record. -/
theorem fixed_mints_pair_independent_witness :
    (executeBuy execDefault [] pairSOLUSDC 1 1 (QuoteOutcome.ok 1 0.1)).1 =
      SwapResult.executedTrade tradeBuyUnit ∧
    executeBuy execDefault [] pairSOLUSDC 1 1 (QuoteOutcome.ok 1 0.1) =
      executeBuy execDefault [] pairOther 1 1 (QuoteOutcome.ok 1 0.1) ∧
    tradeBuyUnit.inputMint = SOL_MINT ∧ tradeBuyUnit.outputMint = USDC_MINT := by
  have hEval : (executeBuy execDefault [] pairSOLUSDC 1 1 (QuoteOutcome.ok 1 0.1)).1 =
      SwapResult.executedTrade tradeBuyUnit := by
    norm_num [executeBuy, executeSwap, execDefault, LAMPORTS_PER_SOL, tradeBuyUnit,
      SOL_MINT, USDC_MINT]
  have hMints := (fixed_mints_pair_independent execDefault [] pairSOLUSDC pairOther 1 1
    (QuoteOutcome.ok 1 0.1)).2.2.1 tradeBuyUnit hEval
  exact ⟨hEval, (fixed_mints_pair_independent execDefault [] pairSOLUSDC pairOther 1 1
    (QuoteOutcome.ok 1 0.1)).1, hMints⟩

/-- Only the dry-run branch of `executeSwap` extends the history, and the
record it appends has `success = true` and `dryRun = true`. -/
theorem executeSwap_history_extends (cfg : ExecConfig) (history : List TradeRecord)
    (im om : String) (amount : ℚ) (quote : QuoteOutcome) :
    (executeSwap cfg history im om amount quote).2.1 = history ∨
    ∃ t : TradeRecord, t.success = true ∧ t.dryRun = true ∧
      (executeSwap cfg history im om amount quote).2.1 = history ++ [t] := by
  unfold executeSwap
  by_cases hlt : amount < cfg.minTradeSize * LAMPORTS_PER_SOL
  · left
    rw [if_pos hlt]
  · rw [if_neg hlt]
    cases quote with
    | thrown msg => left; rfl
    | failed => left; rfl
    | ok outAmount priceImpactPct =>
      by_cases hdr : cfg.dryRun = true
      · right
        simp only [hdr, if_true]
        exact ⟨⟨true, true, im, om, amount, outAmount, priceImpactPct⟩, rfl, rfl, rfl⟩
      · left
        simp [hdr]

/-- Every executor call preserves the all-successful-all-dry-run history
invariant. -/
theorem stepExec_all (s : ExecState) (op : ExecOp)
    (h : (s.tradeHistory.all fun t => t.success && t.dryRun) = true) :
    ((stepExec s op).tradeHistory.all fun t => t.success && t.dryRun) = true := by
  cases op with
  | swap im om amount quote =>
    rcases executeSwap_history_extends s.config s.tradeHistory im om amount quote with
      he | ⟨t, hs, hd, he⟩
    · simpa [stepExec, he] using h
    · simp [stepExec, he, List.all_append, h, hs, hd]
  | buy pair size portfolioValue quote =>
    rcases executeSwap_history_extends s.config s.tradeHistory SOL_MINT USDC_MINT
      ((⌊portfolioValue * size * LAMPORTS_PER_SOL⌋ : ℤ) : ℚ) quote with he | ⟨t, hs, hd, he⟩
    · simpa [stepExec, executeBuy, he] using h
    · simp [stepExec, executeBuy, he, List.all_append, h, hs, hd]
  | sell pair size portfolioValue quote =>
    rcases executeSwap_history_extends s.config s.tradeHistory USDC_MINT SOL_MINT
      ((⌊portfolioValue * size * LAMPORTS_PER_SOL⌋ : ℤ) : ℚ) quote with he | ⟨t, hs, hd, he⟩
    · simpa [stepExec, executeSell, he] using h
    · simp [stepExec, executeSell, he, List.all_append, h, hs, hd]
  | setDryRun enabled => simpa [stepExec] using h
  | clearHistory => simp [stepExec]

/-- The invariant holds after any whole session. -/
theorem runExec_all (ops : List ExecOp) (s : ExecState)
    (h : (s.tradeHistory.all fun t => t.success && t.dryRun) = true) :
    ((runExec s ops).tradeHistory.all fun t => t.success && t.dryRun) = true := by
  induction ops generalizing s with
  | nil => simpa [runExec] using h
  | cons op rest ih =>
    rw [runExec, List.foldl_cons]
    exact ih (stepExec s op) (stepExec_all s op h)

/-- On an all-successful-all-dry-run history, `getStatistics` counts every
trade in every bucket and reports a 100% success rate (0 when empty). -/
theorem getStatistics_of_all (history : List TradeRecord)
    (h : (history.all fun t => t.success && t.dryRun) = true) :
    getStatistics history =
      { totalTrades := history.length, successfulTrades := history.length,
        dryRunTrades := history.length,
        successRate := if 0 < history.length then 100 else 0 } := by
  have hmem := List.all_eq_true.mp h
  have hs : (history.filter fun t => t.success) = history :=
    List.filter_eq_self.mpr fun t ht => by
      have hb := hmem t ht
      simp only [Bool.and_eq_true] at hb
      exact hb.1
  have hd : (history.filter fun t => t.dryRun) = history :=
    List.filter_eq_self.mpr fun t ht => by
      have hb := hmem t ht
      simp only [Bool.and_eq_true] at hb
      exact hb.2
  unfold getStatistics
  rw [hs, hd]
  simp only [Stats.mk.injEq]
  refine ⟨by first | rfl | trivial, by first | rfl | trivial, by first | rfl | trivial, ?_⟩
  by_cases hl : 0 < history.length
  · rw [if_pos hl, if_pos hl]
    have hne : (history.length : ℚ) ≠ 0 := Nat.cast_ne_zero.mpr hl.ne'
    rw [div_self hne, one_mul]
  · rw [if_neg hl, if_neg hl]

/-- Claim C10: starting from a fresh executor, after any sequence of
`executeSwap`/`executeBuy`/`executeSell`/`setDryRun`/`clearHistory` calls
with arbitrary quote-provider answers, every record in the trade history
has `success = true` and `dryRun = true`, and `getStatistics` reports
`successfulTrades = dryRunTrades = totalTrades` with a success rate of
100 whenever the history is non-empty and 0 otherwise. -/
theorem history_all_dry_run_success_stats (cfg : ExecConfig) (ops : List ExecOp) :
    ((runExec { config := cfg, tradeHistory := [] } ops).tradeHistory.all
        fun t => t.success && t.dryRun) = true ∧
    getStatistics (runExec { config := cfg, tradeHistory := [] } ops).tradeHistory =
      { totalTrades := (runExec { config := cfg, tradeHistory := [] } ops).tradeHistory.length,
        successfulTrades :=
          (runExec { config := cfg, tradeHistory := [] } ops).tradeHistory.length,
        dryRunTrades :=
          (runExec { config := cfg, tradeHistory := [] } ops).tradeHistory.length,
        successRate :=
          if 0 < (runExec { config := cfg, tradeHistory := [] } ops).tradeHistory.length
          then 100 else 0 } := by
  have hall := runExec_all ops { config := cfg, tradeHistory := [] } (by simp)
  exact ⟨hall, getStatistics_of_all _ hall⟩

end HyperBot
